import Mathlib

/-!
A shallow embedding of the chain-management core of `brucetieu/blockchain`
(`services.blockchainService` in the Go source), together with proofs about
its four public operations: `CreateBlockchain`, `AddToBlockChain`,
`GetBlockchain` and `GetGenesisBlock`.

Embedding choices, recorded once here:

* The `representations` package (the `Block` and `Transaction` structs), the
  `repository` (BoltDB key-value store), the block/transaction factories and
  the gob codec are external collaborators that are not part of the core
  source file; they are modelled from the spec's data model (§3) and
  collaborator contracts (§6).
* The codec (`ToBlockBytes` / `ToBlockStructure`, `ToTxnBytes`) is a
  serialize/deserialize round-trip, so the store holds structured values
  directly and decoding is the identity.
* The store is an append log of `(key, value)` pairs plus the `"lastBlock"`
  pointer, mirroring the repository contract `store-block(hash, bytes)`,
  `store-transaction(id, bytes)`, `get-last-block`, `enumerate-blocks`.
  Reads are modelled as reliable; write failures (the error returns of
  `CreateBlock` / `CreateTransaction` on the repository) are injected
  through explicit environment flags, since the claims speak about them.
* The quantities the external factories compute (block hash, block
  timestamp, transaction id, coinbase amount) are supplied by an
  environment record per call.
* Go's `sort.Slice` with `Timestamp >` comparison is modelled by
  `List.insertionSort` with the reflexive descending-timestamp relation:
  both produce a permutation of the input that is pairwise sorted by
  non-increasing timestamp, and no claim depends on the order of ties
  (which the spec leaves undefined).
-/

namespace BrucetieuBlockchain

/-- Modelled from the spec (§3): `reps.Transaction`, with `id` (unique
identity bytes), sender (`from`, empty for coinbase), recipient (`to`),
`amount`, and the free-text memo used by the coinbase constructor.
The `representations` package is not in the core source. -/
structure Transaction where
  id : List Nat
  sender : String
  recipient : String
  amount : Int
  memo : String
deriving Repr, DecidableEq

/-- Modelled from the spec (§3): `reps.Block`, with derived `hash`,
`prevHash` (empty iff genesis), `timestamp`, and the owned transactions.
The `representations` package is not in the core source. -/
structure Block where
  hash : List Nat
  prevHash : List Nat
  timestamp : Int
  transactions : List Transaction
deriving Repr, DecidableEq

/-- The zero value `reps.Block{}`: every field empty, as returned by
`&reps.Block{}` on the error paths of `AddToBlockChain` and as the initial
`genesis` value in `GetGenesisBlock`. -/
def emptyBlock : Block := ⟨[], [], 0, []⟩

/-- The error kinds the chain manager surfaces (spec §7). The Go code
returns `fmt.Errorf` strings; the constructors stand for the four distinct
return sites: the missing last-block pointer, the genesis lookup finding
nothing, a transaction-factory failure, and a repository write failure. -/
inductive ChainErr where
  | notInitialized
  | genesisNotFound
  | txnConstructionFailed
  | persistFailed
deriving Repr, DecidableEq

/-- The persisted state held by the repository: blocks keyed by hash,
transactions keyed by id (both as append logs of key-value pairs), and the
`"lastBlock"` pointer, which `GetBlock` resolves to the serialized most
recently stored block. -/
structure Store where
  blocks : List (List Nat × Block)
  txns : List (List Nat × Transaction)
  lastBlock : Option Block
deriving Repr, DecidableEq

/-- The empty store: nothing persisted, no last-block pointer. -/
def emptyStore : Store := ⟨[], [], none⟩

/-- The blocks the repository's `enumerate-blocks` yields (decoded; the
codec is the identity in this embedding). -/
def blockVals (s : Store) : List Block := s.blocks.map Prod.snd

/-- The Go predicate `len(block.PrevHash) == 0` that identifies genesis. -/
def emptyPrev (b : Block) : Bool := b.prevHash.isEmpty

/-- `repository.CreateBlock(hash, serializedBlock)`: stores
`<hash, block>` and `<"lastBlock", block>`, returning the stored bytes; the
`ok` flag injects the repository's write-failure path. Modelled from the
spec: the repository is an external collaborator (§6), and a failed write
leaves the store unchanged (the single write is logically atomic, §4.1). -/
def repoCreateBlock (ok : Bool) (s : Store) (key : List Nat) (b : Block) :
    Except ChainErr (Block × Store) :=
  if ok then
    .ok (b, { s with blocks := s.blocks ++ [(key, b)], lastBlock := some b })
  else
    .error .persistFailed

/-- `repository.CreateTransaction(id, serializedTxn)`: stores `<id, txn>`;
the `ok` flag injects the repository's write-failure path. Modelled from
the spec (§6). -/
def repoCreateTransaction (ok : Bool) (s : Store) (key : List Nat)
    (t : Transaction) : Except ChainErr Store :=
  if ok then
    .ok { s with txns := s.txns ++ [(key, t)] }
  else
    .error .persistFailed

/-- The fixed chain-initiation memo passed to `CreateCoinbaseTxn` in
`CreateBlockchain`. -/
def genesisMemo : String := "First transaction in Blockchain"

/-- Modelled from the spec: `transactionService.CreateCoinbaseTxn(to, memo)`
(not in the core source) produces the chain-initiating transaction with no
sender (§3, §6); its id and reward amount are environment-supplied. -/
def createCoinbaseTxn (id : List Nat) (amount : Int) (toAddr memo : String) :
    Transaction :=
  ⟨id, "", toAddr, amount, memo⟩

/-- Modelled from the spec: `blockService.CreateBlock(txns, prevHash)`
(not in the core source) builds a Block from the transactions and previous
hash, computing the hash and timestamp (§6); those two computed values are
environment-supplied. -/
def createBlock (hash : List Nat) (time : Int) (txns : List Transaction)
    (prevHash : List Nat) : Block :=
  ⟨hash, prevHash, time, txns⟩

/-- `GetGenesisBlock`: enumerate all persisted blocks, decode each, keep
the first with an empty `prevHash` (the loop with `break`), starting from
the zero block; fail when the result still has an empty hash and an empty
previous hash. -/
def getGenesisBlock (blocks : List Block) : Except ChainErr Block :=
  let genesis := (blocks.find? emptyPrev).getD emptyBlock
  if genesis.hash.isEmpty && genesis.prevHash.isEmpty then
    .error .genesisNotFound
  else
    .ok genesis

/-- The environment of one `CreateBlockchain(to)` call: the recipient, the
values the transaction and block factories compute, and whether the single
repository write succeeds. -/
structure CreateEnv where
  toAddr : String
  coinbaseId : List Nat
  coinbaseAmount : Int
  blockHash : List Nat
  blockTime : Int
  persistOk : Bool
deriving Repr, DecidableEq

/-- `CreateBlockchain(to)`, returning the Go triple
`(*reps.Block, bool, error)` (the pointer as an `Option`) and the store
after the call. On lookup failure it builds the coinbase transaction and
the genesis block with empty previous hash and persists it keyed by its
hash; on lookup success it returns the found genesis with `doesExist` set
by the empty-previous-hash test. -/
def createBlockchain (env : CreateEnv) (s : Store) :
    (Option Block × Bool × Option ChainErr) × Store :=
  match getGenesisBlock (blockVals s) with
  | .error _ =>
    let coinbaseTxn := createCoinbaseTxn env.coinbaseId env.coinbaseAmount
      env.toAddr genesisMemo
    let newBlock := createBlock env.blockHash env.blockTime [coinbaseTxn] []
    match repoCreateBlock env.persistOk s newBlock.hash newBlock with
    | .error e => ((none, false, some e), s)
    | .ok (newBlockchain, s') => ((some newBlockchain, false, none), s')
  | .ok genesisBlock =>
    ((some genesisBlock, genesisBlock.prevHash.isEmpty, none), s)

/-- The environment of one `AddToBlockChain(from, to, amount)` call:
whether the transaction factory succeeds, the id it assigns, the hash and
timestamp the block factory computes, and whether each of the two
repository writes succeeds. -/
structure AddEnv where
  txnOk : Bool
  txnId : List Nat
  blockHash : List Nat
  blockTime : Int
  persistBlockOk : Bool
  persistTxnOk : Bool
deriving Repr, DecidableEq

/-- Modelled from the spec: `transactionService.CreateTransaction(from, to,
amount)` (not in the core source) builds a transfer transaction or fails
(§6); the failure is injected by the environment and propagated unchanged. -/
def createTransaction (env : AddEnv) (sender toAddr : String) (amount : Int) :
    Except ChainErr Transaction :=
  if env.txnOk then
    .ok ⟨env.txnId, sender, toAddr, amount, ""⟩
  else
    .error .txnConstructionFailed

/-- `AddToBlockChain(from, to, amount)`: read the last block (error when
the pointer is absent, returning the zero block pointer), decode it, build
the transaction, build the new block with the decoded last block's hash as
previous hash, persist the block, then persist the transaction; every
error path returns `&reps.Block{}` together with the error. -/
def addToBlockChain (env : AddEnv) (sender toAddr : String) (amount : Int)
    (s : Store) : (Option Block × Option ChainErr) × Store :=
  match s.lastBlock with
  | none => ((some emptyBlock, some .notInitialized), s)
  | some lastBlock =>
    let decodedLastBlock := lastBlock
    match createTransaction env sender toAddr amount with
    | .error e => ((some emptyBlock, some e), s)
    | .ok newTxn =>
      let newBlock := createBlock env.blockHash env.blockTime [newTxn]
        decodedLastBlock.hash
      match repoCreateBlock env.persistBlockOk s newBlock.hash newBlock with
      | .error e => ((some emptyBlock, some e), s)
      | .ok (_, s1) =>
        match repoCreateTransaction env.persistTxnOk s1 newTxn.id newTxn with
        | .error e => ((some emptyBlock, some e), s1)
        | .ok s2 => ((some newBlock, none), s2)

/-- The comparison `GetBlockchain` sorts by: block `i` comes before block
`j` when `allBlocks[i].Timestamp > allBlocks[j].Timestamp`; as a reflexive
sort relation this is non-increasing timestamp. -/
def blockGE (a b : Block) : Prop := b.timestamp ≤ a.timestamp

instance : DecidableRel blockGE := fun a b =>
  inferInstanceAs (Decidable (b.timestamp ≤ a.timestamp))

instance : IsTotal Block blockGE := ⟨fun a b => le_total b.timestamp a.timestamp⟩

instance : IsTrans Block blockGE :=
  ⟨fun _ _ _ hab hbc => le_trans hbc hab⟩

/-- `GetBlockchain`: enumerate all persisted blocks, decode each, and sort
by timestamp descending (most recent first). -/
def getBlockchain (s : Store) : List Block :=
  List.insertionSort blockGE (blockVals s)

/-! ### Concrete values, sequences of calls, and invariant predicates -/

/-- A persisted genesis-like block used by the witnesses. -/
def witnessLastBlock : Block := ⟨[1], [], 1, []⟩

/-- A store holding one block, with the last-block pointer set. -/
def witnessStore : Store := ⟨[([1], witnessLastBlock)], [], some witnessLastBlock⟩

/-- An append environment where every collaborator succeeds. -/
def witnessAddEnv : AddEnv := ⟨true, [9], [3], 2, true, true⟩

/-- An append environment where the block write fails. -/
def witnessAddEnvBlockFail : AddEnv := ⟨true, [9], [3], 2, false, true⟩

/-- An append environment where the transaction write fails. -/
def witnessAddEnvTxnFail : AddEnv := ⟨true, [9], [3], 2, true, false⟩

/-- A decoded block with an empty hash as well as an empty previous hash;
the genesis lookup's final emptiness test cannot tell it apart from the
zero block the scan starts from. -/
def hashlessGenesis : Block := ⟨[], [], 5, []⟩

/-- A creation environment where every collaborator succeeds. -/
def witnessCreateEnv : CreateEnv := ⟨"alice", [7], 50, [2], 0, true⟩

/-- A non-genesis block linked to `witnessLastBlock`. -/
def witnessBlockTwo : Block := ⟨[2], [1], 2, []⟩

/-- A creation environment where the single repository write fails. -/
def witnessCreateEnvFail : CreateEnv := ⟨"alice", [7], 50, [2], 0, false⟩

/-- A store enumerating the two-block chain most-recent-first is not
needed; the witness enumerates it in an arbitrary stored order. -/
def witnessChainStore : Store :=
  ⟨[([2], witnessBlockTwo), ([1], witnessLastBlock)], [], some witnessBlockTwo⟩

/-- Iterate a sequence of `CreateBlockchain` calls against the store,
threading the persisted state. -/
def runCreate (s : Store) : List CreateEnv → Store
  | [] => s
  | e :: es => runCreate (createBlockchain e s).2 es

/-- Whether some call of the sequence succeeds (returns a nil error). -/
def someCreateSucceeded (s : Store) : List CreateEnv → Bool
  | [] => false
  | e :: es => (createBlockchain e s).1.2.2.isNone ||
      someCreateSucceeded (createBlockchain e s).2 es

/-- Every persisted block has a nonempty hash. The block factory computes
hashes with SHA-256, so the environment never supplies an empty one; the
claims take this as a hypothesis on the call environments. -/
def HashesNonempty (s : Store) : Prop := ∀ b ∈ blockVals s, b.hash ≠ []

/-- Some persisted block has an empty previous hash. -/
def HasGenesis (s : Store) : Prop := ∃ g ∈ blockVals s, emptyPrev g = true

/-- The genesis block the creation path of `CreateBlockchain` builds from
its call environment: the one coinbase transaction and an empty previous
hash. -/
def genesisBlockOf (env : CreateEnv) : Block :=
  ⟨env.blockHash, [], env.blockTime,
    [⟨env.coinbaseId, "", env.toAddr, env.coinbaseAmount, genesisMemo⟩]⟩

/-- The store after the creation path's single repository write. -/
def storeAfterCreate (env : CreateEnv) (s : Store) : Store :=
  { s with
      blocks := s.blocks ++ [(env.blockHash, genesisBlockOf env)]
      lastBlock := some (genesisBlockOf env) }

/-- A second creation environment for the uniqueness witness. -/
def witnessCreateEnvB : CreateEnv := ⟨"bob", [8], 50, [4], 3, true⟩

/-! ### Helper lemmas -/

/-- A successful genesis lookup returns the first enumerated block with an
empty previous hash, and that block has a nonempty hash. -/
theorem getGenesisBlock_ok_iff (blocks : List Block) (g : Block) :
    getGenesisBlock blocks = .ok g ↔
      blocks.find? emptyPrev = some g ∧ g.hash ≠ [] := by
  unfold getGenesisBlock
  cases hf : blocks.find? emptyPrev with
  | none =>
    simp [emptyBlock]
  | some x =>
    have hp : emptyPrev x = true := List.find?_some hf
    have hpe : x.prevHash.isEmpty = true := hp
    simp only [Option.getD_some]
    by_cases hh : x.hash.isEmpty = true
    · rw [if_pos (by simp [hh, hpe])]
      constructor
      · intro h; cases h
      · rintro ⟨hg, hne⟩
        injection hg with hg
        subst hg
        exact absurd (List.isEmpty_iff.mp hh) hne
    · rw [if_neg (by simp [hh])]
      constructor
      · intro h
        injection h with h
        subst h
        exact ⟨rfl, fun he => hh (by simp [he])⟩
      · rintro ⟨hg, _⟩
        injection hg with hg
        subst hg
        rfl

/-- The genesis lookup fails exactly when no enumerated block has an empty
previous hash, or the first such block also has an empty hash. -/
theorem getGenesisBlock_error_iff (blocks : List Block) :
    (∃ e, getGenesisBlock blocks = .error e) ↔
      (blocks.find? emptyPrev = none ∨
        ∃ g, blocks.find? emptyPrev = some g ∧ g.hash = []) := by
  unfold getGenesisBlock
  cases hf : blocks.find? emptyPrev with
  | none =>
    simp [emptyBlock]
  | some x =>
    have hp : emptyPrev x = true := List.find?_some hf
    have hpe : x.prevHash.isEmpty = true := hp
    simp only [Option.getD_some]
    by_cases hh : x.hash.isEmpty = true
    · rw [if_pos (by simp [hh, hpe])]
      exact ⟨fun _ => Or.inr ⟨x, rfl, List.isEmpty_iff.mp hh⟩,
        fun _ => ⟨.genesisNotFound, rfl⟩⟩
    · rw [if_neg (by simp [hh])]
      constructor
      · rintro ⟨e, he⟩; cases he
      · rintro (h | ⟨g, hg, hge⟩)
        · cases h
        · injection hg with hg
          subst hg
          exact absurd (by simp [hge]) hh

/-- With at most one satisfying element, any two satisfying members of a
list coincide. -/
theorem countP_le_one_unique {α : Type} (p : α → Bool) :
    ∀ (l : List α), l.countP p ≤ 1 →
      ∀ a ∈ l, ∀ b ∈ l, p a → p b → a = b := by
  intro l
  induction l with
  | nil => intro _ a ha; cases ha
  | cons x xs ih =>
    intro hle a ha b hb hpa hpb
    rw [List.countP_cons] at hle
    rcases List.mem_cons.mp ha with rfl | ha'
    · rcases List.mem_cons.mp hb with rfl | hb'
      · rfl
      · exfalso
        have h1 : 0 < xs.countP p := List.countP_pos_iff.mpr ⟨b, hb', hpb⟩
        have h2 : (if p a then 1 else 0) = 1 := by simp [hpa]
        rw [h2] at hle
        omega
    · rcases List.mem_cons.mp hb with rfl | hb'
      · exfalso
        have h1 : 0 < xs.countP p := List.countP_pos_iff.mpr ⟨a, ha', hpa⟩
        have h2 : (if p b then 1 else 0) = 1 := by simp [hpb]
        rw [h2] at hle
        omega
      · exact ih (le_trans (Nat.le_add_right _ _) hle) a ha' b hb' hpa hpb

/-! ### Concrete values used by the witnesses -/

/-! ### Claims about AddToBlockChain -/

/-- Claim C2: for every successful `AddToBlockChain(from, to, amount)`
call, the returned and persisted new block's `prevHash` equals the hash of
the decoded last block read at the start of the call, and the new block
contains exactly the one transaction constructed from `(from, to,
amount)`. -/
theorem addToBlockChain_links (env : AddEnv) (sender toAddr : String)
    (amount : Int) (s : Store)
    (hok : (addToBlockChain env sender toAddr amount s).1.2 = none) :
    ∃ last, s.lastBlock = some last ∧
      (addToBlockChain env sender toAddr amount s).1.1 =
        some ⟨env.blockHash, last.hash, env.blockTime,
          [⟨env.txnId, sender, toAddr, amount, ""⟩]⟩ ∧
      (env.blockHash, (⟨env.blockHash, last.hash, env.blockTime,
          [⟨env.txnId, sender, toAddr, amount, ""⟩]⟩ : Block)) ∈
        ((addToBlockChain env sender toAddr amount s).2).blocks := by
  cases hlb : s.lastBlock with
  | none => simp [addToBlockChain, hlb] at hok
  | some last =>
    refine ⟨last, rfl, ?_⟩
    by_cases ht : env.txnOk
    · by_cases hpb : env.persistBlockOk
      · by_cases hpt : env.persistTxnOk
        · simp [addToBlockChain, hlb, createTransaction, ht, createBlock,
            repoCreateBlock, hpb, repoCreateTransaction, hpt]
        · simp [addToBlockChain, hlb, createTransaction, ht, createBlock,
            repoCreateBlock, hpb, repoCreateTransaction, hpt] at hok
      · simp [addToBlockChain, hlb, createTransaction, ht, createBlock,
          repoCreateBlock, hpb] at hok
    · simp [addToBlockChain, hlb, createTransaction, ht] at hok

/-- Claim C2 witness: the linkage theorem applied to a concrete
initialized store and a fully successful environment. -/
theorem addToBlockChain_links_witness :
    ∃ last, witnessStore.lastBlock = some last ∧
      (addToBlockChain witnessAddEnv "alice" "bob" 10 witnessStore).1.1 =
        some ⟨witnessAddEnv.blockHash, last.hash, witnessAddEnv.blockTime,
          [⟨witnessAddEnv.txnId, "alice", "bob", 10, ""⟩]⟩ ∧
      (witnessAddEnv.blockHash, (⟨witnessAddEnv.blockHash, last.hash,
          witnessAddEnv.blockTime,
          [⟨witnessAddEnv.txnId, "alice", "bob", 10, ""⟩]⟩ : Block)) ∈
        ((addToBlockChain witnessAddEnv "alice" "bob" 10 witnessStore).2).blocks :=
  addToBlockChain_links witnessAddEnv "alice" "bob" 10 witnessStore rfl

/-- Claim C3: any `AddToBlockChain` call on a store with no last-block
pointer returns the zero block with the not-initialized error and leaves
the persisted state unchanged. -/
theorem addToBlockChain_uninitialized (env : AddEnv) (sender toAddr : String)
    (amount : Int) (s : Store) (h : s.lastBlock = none) :
    addToBlockChain env sender toAddr amount s =
      ((some emptyBlock, some ChainErr.notInitialized), s) := by
  simp [addToBlockChain, h]

/-- Claim C3 witness: the uninitialized-append theorem applied to the
empty store. -/
theorem addToBlockChain_uninitialized_witness :
    addToBlockChain witnessAddEnv "alice" "bob" 10 emptyStore =
      ((some emptyBlock, some ChainErr.notInitialized), emptyStore) :=
  addToBlockChain_uninitialized witnessAddEnv "alice" "bob" 10 emptyStore rfl

/-- Claim C7: when the block write fails the call returns that error with
nothing persisted, and when the block write succeeds but the transaction
write fails the call returns that error with the block persisted and the
transaction log unchanged. -/
theorem addToBlockChain_write_order (env : AddEnv) (sender toAddr : String)
    (amount : Int) (s : Store) (last : Block)
    (hlast : s.lastBlock = some last) (htxn : env.txnOk = true) :
    (env.persistBlockOk = false →
      addToBlockChain env sender toAddr amount s =
        ((some emptyBlock, some ChainErr.persistFailed), s)) ∧
    (env.persistBlockOk = true → env.persistTxnOk = false →
      addToBlockChain env sender toAddr amount s =
        ((some emptyBlock, some ChainErr.persistFailed),
         { s with
            blocks := s.blocks ++ [(env.blockHash,
              ⟨env.blockHash, last.hash, env.blockTime,
                [⟨env.txnId, sender, toAddr, amount, ""⟩]⟩)],
            lastBlock := some ⟨env.blockHash, last.hash, env.blockTime,
              [⟨env.txnId, sender, toAddr, amount, ""⟩]⟩ })) := by
  constructor
  · intro hpb
    simp [addToBlockChain, hlast, createTransaction, htxn, createBlock,
      repoCreateBlock, hpb]
  · intro hpb hpt
    simp [addToBlockChain, hlast, createTransaction, htxn, createBlock,
      repoCreateBlock, hpb, repoCreateTransaction, hpt]

/-- Claim C7 witness: the write-order theorem applied to a concrete store,
once with a failing block write and once with a failing transaction
write. -/
theorem addToBlockChain_write_order_witness :
    addToBlockChain witnessAddEnvBlockFail "alice" "bob" 10 witnessStore =
      ((some emptyBlock, some ChainErr.persistFailed), witnessStore) ∧
    addToBlockChain witnessAddEnvTxnFail "alice" "bob" 10 witnessStore =
      ((some emptyBlock, some ChainErr.persistFailed),
       { witnessStore with
          blocks := witnessStore.blocks ++ [(witnessAddEnvTxnFail.blockHash,
            ⟨witnessAddEnvTxnFail.blockHash, witnessLastBlock.hash,
              witnessAddEnvTxnFail.blockTime,
              [⟨witnessAddEnvTxnFail.txnId, "alice", "bob", 10, ""⟩]⟩)],
          lastBlock := some ⟨witnessAddEnvTxnFail.blockHash,
            witnessLastBlock.hash, witnessAddEnvTxnFail.blockTime,
            [⟨witnessAddEnvTxnFail.txnId, "alice", "bob", 10, ""⟩]⟩ }) :=
  ⟨(addToBlockChain_write_order witnessAddEnvBlockFail "alice" "bob" 10
      witnessStore witnessLastBlock rfl rfl).1 rfl,
   (addToBlockChain_write_order witnessAddEnvTxnFail "alice" "bob" 10
      witnessStore witnessLastBlock rfl rfl).2 rfl rfl⟩

/-- Claim C10: every error path of `AddToBlockChain` returns a non-nil
pointer to the zero-value block together with the error. -/
theorem addToBlockChain_error_zero_block (env : AddEnv)
    (sender toAddr : String) (amount : Int) (s : Store)
    (h : (addToBlockChain env sender toAddr amount s).1.2 ≠ none) :
    (addToBlockChain env sender toAddr amount s).1.1 = some emptyBlock := by
  cases hlb : s.lastBlock with
  | none => simp [addToBlockChain, hlb]
  | some last =>
    by_cases ht : env.txnOk
    · by_cases hpb : env.persistBlockOk
      · by_cases hpt : env.persistTxnOk
        · exfalso
          apply h
          simp [addToBlockChain, hlb, createTransaction, ht, createBlock,
            repoCreateBlock, hpb, repoCreateTransaction, hpt]
        · simp [addToBlockChain, hlb, createTransaction, ht, createBlock,
            repoCreateBlock, hpb, repoCreateTransaction, hpt]
      · simp [addToBlockChain, hlb, createTransaction, ht, createBlock,
          repoCreateBlock, hpb]
    · simp [addToBlockChain, hlb, createTransaction, ht]

/-- Claim C10 witness: the zero-block theorem applied to the empty store,
where the call fails for lack of a last-block pointer. -/
theorem addToBlockChain_error_zero_block_witness :
    (addToBlockChain witnessAddEnv "alice" "bob" 10 emptyStore).1.1 =
      some emptyBlock :=
  addToBlockChain_error_zero_block witnessAddEnv "alice" "bob" 10 emptyStore
    (by decide)

/-! ### Claims about GetGenesisBlock and CreateBlockchain lookup -/

/-- Claim C5 counterexample: a persisted set containing a block with an
empty previous hash on which the lookup nevertheless reports that no
genesis exists, refuting the claimed equivalence. -/
theorem getGenesisBlock_error_despite_empty_prev :
    (∃ b ∈ [hashlessGenesis], b.prevHash = ([] : List Nat)) ∧
    getGenesisBlock [hashlessGenesis] = .error ChainErr.genesisNotFound :=
  ⟨⟨hashlessGenesis, by simp, rfl⟩, rfl⟩

/-- Claim C5 (amended): `GetGenesisBlock` returns the first decoded
persisted block whose previous hash is empty, and it fails exactly when no
persisted block has an empty previous hash or the first such block also
has an empty hash. -/
theorem getGenesisBlock_first_result (blocks : List Block) :
    (∀ g, getGenesisBlock blocks = .ok g → blocks.find? emptyPrev = some g) ∧
    ((∃ e, getGenesisBlock blocks = .error e) ↔
      (blocks.find? emptyPrev = none ∨
        ∃ g, blocks.find? emptyPrev = some g ∧ g.hash = [])) :=
  ⟨fun g h => ((getGenesisBlock_ok_iff blocks g).mp h).1,
   getGenesisBlock_error_iff blocks⟩

/-- Claim C5 witness: the amended theorem applied to a singleton store
with a well-formed genesis, and to the empty enumeration. -/
theorem getGenesisBlock_first_result_witness :
    [witnessLastBlock].find? emptyPrev = some witnessLastBlock ∧
    (∃ e, getGenesisBlock ([] : List Block) = .error e) :=
  ⟨(getGenesisBlock_first_result [witnessLastBlock]).1 witnessLastBlock rfl,
   (getGenesisBlock_first_result []).2.mpr (Or.inl rfl)⟩

/-- Claim C8: when the genesis lookup succeeds, `CreateBlockchain` returns
the found block unchanged with `alreadyExisted` set by the
empty-previous-hash test, and that test is true for every block the lookup
can return. -/
theorem createBlockchain_found_genesis (env : CreateEnv) (s : Store)
    (g : Block) (h : getGenesisBlock (blockVals s) = .ok g) :
    createBlockchain env s = ((some g, g.prevHash.isEmpty, none), s) ∧
      g.prevHash = [] := by
  have hfind := ((getGenesisBlock_ok_iff (blockVals s) g).mp h).1
  have hp : emptyPrev g = true := List.find?_some hfind
  refine ⟨?_, List.isEmpty_iff.mp hp⟩
  simp [createBlockchain, h]

/-- Claim C8 witness: the found-genesis theorem applied to a store whose
genesis lookup succeeds. -/
theorem createBlockchain_found_genesis_witness :
    createBlockchain witnessCreateEnv witnessStore =
      ((some witnessLastBlock, witnessLastBlock.prevHash.isEmpty, none),
        witnessStore) ∧ witnessLastBlock.prevHash = [] :=
  createBlockchain_found_genesis witnessCreateEnv witnessStore
    witnessLastBlock rfl

/-- Claim C9: on a persisted set with at most one empty-previous-hash
block, the genesis lookup yields the same result for every enumeration
order the persistence boundary may produce. -/
theorem getGenesisBlock_perm_invariant (l1 l2 : List Block)
    (hperm : l1.Perm l2) (hcount : l1.countP emptyPrev ≤ 1) :
    getGenesisBlock l1 = getGenesisBlock l2 := by
  have hfind : l1.find? emptyPrev = l2.find? emptyPrev := by
    cases hf1 : l1.find? emptyPrev with
    | none =>
      have hall := List.find?_eq_none.mp hf1
      exact (List.find?_eq_none.mpr
        (fun x hx => hall x (hperm.mem_iff.mpr hx))).symm
    | some a =>
      have hpa : emptyPrev a = true := List.find?_some hf1
      have ha1 : a ∈ l1 := List.mem_of_find?_eq_some hf1
      cases hf2 : l2.find? emptyPrev with
      | none =>
        exact absurd hpa (List.find?_eq_none.mp hf2 a (hperm.mem_iff.mp ha1))
      | some b =>
        have hpb : emptyPrev b = true := List.find?_some hf2
        have hb1 : b ∈ l1 := hperm.mem_iff.mpr (List.mem_of_find?_eq_some hf2)
        rw [countP_le_one_unique emptyPrev l1 hcount a ha1 b hb1 hpa hpb]
  unfold getGenesisBlock
  rw [hfind]

/-- Claim C9 witness: the lookup agrees on the two enumeration orders of a
concrete two-block set with a single genesis. -/
theorem getGenesisBlock_perm_invariant_witness :
    getGenesisBlock [witnessBlockTwo, witnessLastBlock] =
      getGenesisBlock [witnessLastBlock, witnessBlockTwo] :=
  getGenesisBlock_perm_invariant _ _
    (List.Perm.swap witnessLastBlock witnessBlockTwo []) (by decide)

/-- Claim C6: when the genesis lookup fails, `CreateBlockchain` builds the
block whose transactions are exactly one coinbase transaction paying the
recipient with the fixed chain-initiation memo and whose previous hash is
empty, persists it keyed by its hash and returns it with
`alreadyExisted = false`; when that single persist fails, the call returns
the error with no genesis block and the store unchanged. -/
theorem createBlockchain_creates_genesis (env : CreateEnv) (s : Store)
    (e : ChainErr) (h : getGenesisBlock (blockVals s) = .error e) :
    (env.persistOk = true →
      createBlockchain env s =
        ((some ⟨env.blockHash, [], env.blockTime,
            [⟨env.coinbaseId, "", env.toAddr, env.coinbaseAmount,
              genesisMemo⟩]⟩, false, none),
         { s with
            blocks := s.blocks ++ [(env.blockHash,
              ⟨env.blockHash, [], env.blockTime,
                [⟨env.coinbaseId, "", env.toAddr, env.coinbaseAmount,
                  genesisMemo⟩]⟩)],
            lastBlock := some ⟨env.blockHash, [], env.blockTime,
              [⟨env.coinbaseId, "", env.toAddr, env.coinbaseAmount,
                genesisMemo⟩]⟩ })) ∧
    (env.persistOk = false →
      createBlockchain env s =
        ((none, false, some ChainErr.persistFailed), s)) := by
  constructor
  · intro hp
    simp [createBlockchain, h, createCoinbaseTxn, createBlock,
      repoCreateBlock, hp]
  · intro hp
    simp [createBlockchain, h, createCoinbaseTxn, createBlock,
      repoCreateBlock, hp]

/-- Claim C6 witness: the creation theorem applied to the empty store,
once with a succeeding write and once with a failing one. -/
theorem createBlockchain_creates_genesis_witness :
    createBlockchain witnessCreateEnv emptyStore =
      ((some ⟨witnessCreateEnv.blockHash, [], witnessCreateEnv.blockTime,
          [⟨witnessCreateEnv.coinbaseId, "", witnessCreateEnv.toAddr,
            witnessCreateEnv.coinbaseAmount, genesisMemo⟩]⟩, false, none),
       { emptyStore with
          blocks := emptyStore.blocks ++ [(witnessCreateEnv.blockHash,
            ⟨witnessCreateEnv.blockHash, [], witnessCreateEnv.blockTime,
              [⟨witnessCreateEnv.coinbaseId, "", witnessCreateEnv.toAddr,
                witnessCreateEnv.coinbaseAmount, genesisMemo⟩]⟩)],
          lastBlock := some ⟨witnessCreateEnv.blockHash, [],
            witnessCreateEnv.blockTime,
            [⟨witnessCreateEnv.coinbaseId, "", witnessCreateEnv.toAddr,
              witnessCreateEnv.coinbaseAmount, genesisMemo⟩]⟩ }) ∧
    createBlockchain witnessCreateEnvFail emptyStore =
      ((none, false, some ChainErr.persistFailed), emptyStore) :=
  ⟨(createBlockchain_creates_genesis witnessCreateEnv emptyStore
      ChainErr.genesisNotFound rfl).1 rfl,
   (createBlockchain_creates_genesis witnessCreateEnvFail emptyStore
      ChainErr.genesisNotFound rfl).2 rfl⟩

/-! ### Claim about GetBlockchain ordering -/

/-- Claim C4: `GetBlockchain` returns a permutation of all decoded
persisted blocks sorted by timestamp descending; when the genesis block's
timestamp is strictly below every other block's (which is what strictly
increasing timestamps along the chain give), the genesis occupies the
final position. -/
theorem getBlockchain_sorted (s : Store) (g : Block)
    (hmem : g ∈ blockVals s) (_hgen : g.prevHash = [])
    (hmin : ∀ b ∈ blockVals s, b ≠ g → g.timestamp < b.timestamp) :
    (getBlockchain s).Perm (blockVals s) ∧
    List.Sorted blockGE (getBlockchain s) ∧
    (getBlockchain s).getLast? = some g := by
  have hperm : (getBlockchain s).Perm (blockVals s) :=
    List.perm_insertionSort _ _
  have hsorted : List.Sorted blockGE (getBlockchain s) :=
    List.sorted_insertionSort _ _
  refine ⟨hperm, hsorted, ?_⟩
  have hmem' : g ∈ getBlockchain s := hperm.mem_iff.mpr hmem
  have hne : getBlockchain s ≠ [] := List.ne_nil_of_mem hmem'
  obtain ⟨l, x, hdecomp⟩ : ∃ l x, getBlockchain s = l ++ [x] :=
    ⟨_, _, (List.dropLast_append_getLast hne).symm⟩
  rw [hdecomp, List.getLast?_concat]
  have hpair : List.Pairwise blockGE (l ++ [x]) := by
    have h' := hsorted
    rw [hdecomp] at h'
    exact h'
  rw [hdecomp] at hmem'
  rcases List.mem_append.mp hmem' with hg | hg
  · by_cases hxg : x = g
    · rw [hxg]
    · exfalso
      have hgx : blockGE g x :=
        (List.pairwise_append.mp hpair).2.2 g hg x (List.mem_singleton_self x)
      have hx : x ∈ blockVals s := hperm.mem_iff.mp
        (by rw [hdecomp]
            exact List.mem_append.mpr (Or.inr (List.mem_singleton_self x)))
      have h1 : x.timestamp ≤ g.timestamp := hgx
      have h2 : g.timestamp < x.timestamp := hmin x hx hxg
      omega
  · rw [List.mem_singleton.mp hg]

/-- Claim C4 witness: the ordering theorem applied to a concrete two-block
chain with strictly increasing timestamps. -/
theorem getBlockchain_sorted_witness :
    (getBlockchain witnessChainStore).Perm (blockVals witnessChainStore) ∧
    List.Sorted blockGE (getBlockchain witnessChainStore) ∧
    (getBlockchain witnessChainStore).getLast? = some witnessLastBlock :=
  getBlockchain_sorted witnessChainStore witnessLastBlock (by decide) rfl
    (by decide)

/-! ### Sequences of CreateBlockchain calls and genesis uniqueness -/

/-- On a successful lookup `CreateBlockchain` takes the found branch and
leaves the store untouched. -/
theorem createBlockchain_of_ok (env : CreateEnv) (s : Store) (g : Block)
    (h : getGenesisBlock (blockVals s) = .ok g) :
    createBlockchain env s = ((some g, g.prevHash.isEmpty, none), s) := by
  simp [createBlockchain, h]

/-- On a failed lookup `CreateBlockchain` takes the creation branch:
either the write succeeds and the built genesis is persisted, or the call
fails with the store untouched. -/
theorem createBlockchain_of_error (env : CreateEnv) (s : Store)
    (e : ChainErr) (h : getGenesisBlock (blockVals s) = .error e) :
    createBlockchain env s =
      if env.persistOk then
        ((some (genesisBlockOf env), false, none), storeAfterCreate env s)
      else
        ((none, false, some ChainErr.persistFailed), s) := by
  by_cases hp : env.persistOk
  · simp [createBlockchain, h, createCoinbaseTxn, createBlock,
      repoCreateBlock, hp, genesisBlockOf, storeAfterCreate]
  · simp [createBlockchain, h, createCoinbaseTxn, createBlock,
      repoCreateBlock, hp]

/-- The blocks enumerated after the creation path's single write. -/
theorem blockVals_storeAfterCreate (env : CreateEnv) (s : Store) :
    blockVals (storeAfterCreate env s) =
      blockVals s ++ [genesisBlockOf env] := by
  simp [storeAfterCreate, blockVals]

/-- When every persisted hash is nonempty and a genesis is present, the
lookup succeeds with a persisted empty-previous-hash block. -/
theorem getGenesisBlock_ok_of_hasGenesis (s : Store)
    (hha : HashesNonempty s) (hg : HasGenesis s) :
    ∃ g, getGenesisBlock (blockVals s) = .ok g ∧ g ∈ blockVals s ∧
      emptyPrev g = true := by
  obtain ⟨g0, hg0mem, hg0p⟩ := hg
  cases hf : (blockVals s).find? emptyPrev with
  | none => exact absurd hg0p (List.find?_eq_none.mp hf g0 hg0mem)
  | some g =>
    have hmemg : g ∈ blockVals s := List.mem_of_find?_eq_some hf
    exact ⟨g, (getGenesisBlock_ok_iff _ g).mpr ⟨hf, hha g hmemg⟩, hmemg,
      List.find?_some hf⟩

/-- When every persisted hash is nonempty, a failed lookup means no
persisted block has an empty previous hash. -/
theorem genesisCount_zero_of_error (s : Store) (hha : HashesNonempty s)
    (e : ChainErr) (h : getGenesisBlock (blockVals s) = .error e) :
    (blockVals s).countP emptyPrev = 0 := by
  by_contra hne
  obtain ⟨g, hok, _, _⟩ := getGenesisBlock_ok_of_hasGenesis s hha
    (List.countP_pos_iff.mp (Nat.pos_of_ne_zero hne))
  rw [h] at hok
  cases hok

/-- On a store with nonempty hashes and a present genesis, a
`CreateBlockchain` call returns an already-persisted genesis block and
changes nothing. -/
theorem createBlockchain_step_found (env : CreateEnv) (s : Store)
    (hha : HashesNonempty s) (hg : HasGenesis s) :
    ∃ g ∈ blockVals s, emptyPrev g = true ∧
      createBlockchain env s = ((some g, true, none), s) := by
  obtain ⟨g, hok, hmem, hp⟩ := getGenesisBlock_ok_of_hasGenesis s hha hg
  refine ⟨g, hmem, hp, ?_⟩
  rw [createBlockchain_of_ok env s g hok,
    show g.prevHash.isEmpty = true from hp]

/-- One `CreateBlockchain` call preserves nonemptiness of persisted
hashes, provided the block factory computes a nonempty hash. -/
theorem hashesNonempty_step (env : CreateEnv) (s : Store)
    (hha : HashesNonempty s) (hh : env.blockHash ≠ []) :
    HashesNonempty (createBlockchain env s).2 := by
  cases hlook : getGenesisBlock (blockVals s) with
  | ok g =>
    rw [createBlockchain_of_ok env s g hlook]
    exact hha
  | error e =>
    rw [createBlockchain_of_error env s e hlook]
    by_cases hp : env.persistOk
    · rw [if_pos hp]
      intro b hb
      rw [blockVals_storeAfterCreate] at hb
      rcases List.mem_append.mp hb with hb' | hb'
      · exact hha b hb'
      · rw [List.mem_singleton.mp hb']
        exact hh
    · rw [if_neg hp]
      exact hha

/-- One `CreateBlockchain` call preserves the at-most-one-genesis bound,
provided hashes are nonempty. -/
theorem genesisCount_step (env : CreateEnv) (s : Store)
    (hha : HashesNonempty s)
    (hcount : (blockVals s).countP emptyPrev ≤ 1) :
    (blockVals (createBlockchain env s).2).countP emptyPrev ≤ 1 := by
  cases hlook : getGenesisBlock (blockVals s) with
  | ok g =>
    rw [createBlockchain_of_ok env s g hlook]
    exact hcount
  | error e =>
    rw [createBlockchain_of_error env s e hlook]
    by_cases hp : env.persistOk
    · rw [if_pos hp]
      show (blockVals (storeAfterCreate env s)).countP emptyPrev ≤ 1
      rw [blockVals_storeAfterCreate, List.countP_append,
        genesisCount_zero_of_error s hha e hlook]
      simp [emptyPrev, genesisBlockOf]
    · rw [if_neg hp]
      exact hcount

/-- A successful `CreateBlockchain` call leaves a genesis in the store. -/
theorem hasGenesis_of_success (env : CreateEnv) (s : Store)
    (hsucc : (createBlockchain env s).1.2.2 = none) :
    HasGenesis (createBlockchain env s).2 := by
  cases hlook : getGenesisBlock (blockVals s) with
  | ok g =>
    rw [createBlockchain_of_ok env s g hlook]
    have hfind := ((getGenesisBlock_ok_iff _ g).mp hlook).1
    exact ⟨g, List.mem_of_find?_eq_some hfind, List.find?_some hfind⟩
  | error e =>
    rw [createBlockchain_of_error env s e hlook] at hsucc ⊢
    by_cases hp : env.persistOk
    · rw [if_pos hp]
      refine ⟨genesisBlockOf env, ?_, rfl⟩
      rw [show ((some (genesisBlockOf env), false, none),
          storeAfterCreate env s).2 = storeAfterCreate env s from rfl,
        blockVals_storeAfterCreate]
      exact List.mem_append.mpr (Or.inr (List.mem_singleton_self _))
    · rw [if_neg hp] at hsucc
      cases hsucc

/-- A `CreateBlockchain` call never removes persisted blocks. -/
theorem blockVals_step_mono (env : CreateEnv) (s : Store) (b : Block)
    (hb : b ∈ blockVals s) : b ∈ blockVals (createBlockchain env s).2 := by
  cases hlook : getGenesisBlock (blockVals s) with
  | ok g =>
    rw [createBlockchain_of_ok env s g hlook]
    exact hb
  | error e =>
    rw [createBlockchain_of_error env s e hlook]
    by_cases hp : env.persistOk
    · rw [if_pos hp]
      show b ∈ blockVals (storeAfterCreate env s)
      rw [blockVals_storeAfterCreate]
      exact List.mem_append.mpr (Or.inl hb)
    · rw [if_neg hp]
      exact hb

/-- Running a sequence of calls preserves both parts of the genesis
invariant. -/
theorem invariant_runCreate (envs : List CreateEnv) :
    ∀ (s : Store), HashesNonempty s →
      (blockVals s).countP emptyPrev ≤ 1 →
      (∀ e ∈ envs, e.blockHash ≠ []) →
      HashesNonempty (runCreate s envs) ∧
        (blockVals (runCreate s envs)).countP emptyPrev ≤ 1 := by
  induction envs with
  | nil => exact fun s hha hc _ => ⟨hha, hc⟩
  | cons e es ih =>
    intro s hha hc hh
    exact ih _ (hashesNonempty_step e s hha (hh e (List.mem_cons_self e es)))
      (genesisCount_step e s hha hc)
      (fun x hx => hh x (List.mem_cons_of_mem e hx))

/-- A present genesis survives any further sequence of calls. -/
theorem hasGenesis_runCreate (envs : List CreateEnv) :
    ∀ (s : Store), HasGenesis s → HasGenesis (runCreate s envs) := by
  induction envs with
  | nil => exact fun s hg => hg
  | cons e es ih =>
    intro s hg
    obtain ⟨g, hmem, hp⟩ := hg
    exact ih _ ⟨g, blockVals_step_mono e s g hmem, hp⟩

/-- A successful call somewhere in the sequence leaves a genesis in the
final store. -/
theorem hasGenesis_of_someSuccess (envs : List CreateEnv) :
    ∀ (s : Store), someCreateSucceeded s envs = true →
      HasGenesis (runCreate s envs) := by
  induction envs with
  | nil => intro s h; cases h
  | cons e es ih =>
    intro s h
    rcases Bool.or_eq_true_iff.mp h with h1 | h1
    · exact hasGenesis_runCreate es _
        (hasGenesis_of_success e s (Option.isNone_iff_eq_none.mp h1))
    · exact ih _ h1

/-- The empty store satisfies the genesis invariant. -/
theorem invariant_emptyStore :
    HashesNonempty emptyStore ∧
      (blockVals emptyStore).countP emptyPrev ≤ 1 := by
  constructor
  · intro b hb
    simp [blockVals, emptyStore] at hb
  · simp [blockVals, emptyStore]

/-- Claim C1: starting from an empty store, after any sequence of
`CreateBlockchain` calls at most one persisted block has an empty
previous hash, and every call after the first successful one returns an
already-persisted genesis block without changing the persisted state
(assuming the block factory computes nonempty hashes). -/
theorem createBlockchain_genesis_unique (envs : List CreateEnv)
    (hh : ∀ e ∈ envs, e.blockHash ≠ []) :
    (blockVals (runCreate emptyStore envs)).countP emptyPrev ≤ 1 ∧
    (∀ pre e suf, envs = pre ++ e :: suf →
      someCreateSucceeded emptyStore pre = true →
      ∃ g ∈ blockVals (runCreate emptyStore pre), emptyPrev g = true ∧
        createBlockchain e (runCreate emptyStore pre) =
          ((some g, true, none), runCreate emptyStore pre)) := by
  obtain ⟨hha0, hc0⟩ := invariant_emptyStore
  constructor
  · exact (invariant_runCreate envs emptyStore hha0 hc0 hh).2
  · intro pre e suf heq hsucc
    have hhpre : ∀ x ∈ pre, x.blockHash ≠ [] := fun x hx =>
      hh x (heq ▸ List.mem_append.mpr (Or.inl hx))
    have hinv := invariant_runCreate pre emptyStore hha0 hc0 hhpre
    exact createBlockchain_step_found e _ hinv.1
      (hasGenesis_of_someSuccess pre emptyStore hsucc)

/-- Claim C1 witness: the uniqueness theorem applied to a concrete
two-call sequence whose first call succeeds. -/
theorem createBlockchain_genesis_unique_witness :
    (blockVals (runCreate emptyStore
      [witnessCreateEnv, witnessCreateEnvB])).countP emptyPrev ≤ 1 ∧
    ∃ g ∈ blockVals (runCreate emptyStore [witnessCreateEnv]),
      emptyPrev g = true ∧
      createBlockchain witnessCreateEnvB
          (runCreate emptyStore [witnessCreateEnv]) =
        ((some g, true, none), runCreate emptyStore [witnessCreateEnv]) :=
  ⟨(createBlockchain_genesis_unique [witnessCreateEnv, witnessCreateEnvB]
      (by decide)).1,
   (createBlockchain_genesis_unique [witnessCreateEnv, witnessCreateEnvB]
      (by decide)).2 [witnessCreateEnv] witnessCreateEnvB [] rfl (by decide)⟩

end BrucetieuBlockchain
